import Mathlib

/-!
# Verification of the PushProx client (deepjudge-ai/PushProx, `cmd/client/main.go`)

Shallow embedding of the agent-side poll–execute–push relay protocol.

Modelling conventions:
* A Go `url.URL` is modelled structurally.  Its `RawQuery` is modelled at the
  parsed-parameter level (`List (String × String)` in raw order), i.e. at the
  granularity observable through `url.Values` (`Query()` / `Get` / `Del` /
  `Encode`).  `Encode`'s percent-escaping and key sorting are not observable
  through `Get`/first-value-per-key/key-membership, which is all the program
  and the properties below inspect.
* `time.Time` instants and `time.Duration`s are integer nanosecond counts
  (`Int`); Go's zero `time.Time` is modelled as instant `0`.
* Outer network effects (the federate scrape answer, the poll answer) are
  oracles passed in as `Except String _` values: `.error` is a transport
  failure carrying the Go error text.
* `http.Client` identity: `main` builds one client over the dial/TLS/idle
  transport (`ClientId.configured`); `scrapeFederatedPrometheusEndpoint`
  builds a second one with `&http.Client{}` (`ClientId.fresh`).  Each
  modelled network operation records which client value performs it.
* Executing `doScrape` is modelled as the `Trace` it produces: the outbound
  scrape calls, the push attempts (`doPush` invocations), and — as a ghost
  observation — the state of the job request at the moment the scrape is
  dispatched (`resolved`).
-/

namespace PushProx

/-- A structural `url.URL`: scheme, authority host (which may carry a
`:port` suffix, as in Go where `URL.Host` includes the port), path, and the
query at the parsed-parameter level. -/
structure URL where
  scheme : String
  host : String
  path : String
  query : List (String × String)
deriving DecidableEq, Repr

/-- `url.Values.Get k` after `Query()`: the first value listed for key `k`
in the raw query, or `none` if the key is absent. -/
def getParam (q : List (String × String)) (k : String) : Option String :=
  (q.find? (fun p => p.1 == k)).map (fun p => p.2)

/-- `url.Values.Del k`: remove every pair for key `k`. -/
def delParam (q : List (String × String)) (k : String) : List (String × String) :=
  q.filter (fun p => p.1 != k)

/-- Go's `(*url.URL).Port()` (`splitHostPort`): the substring after the last
`':'` of the host, provided a `':'` exists and everything after it is
decimal digits; otherwise the empty string. -/
def urlPort (host : String) : String :=
  if (host.data.reverse.takeWhile (fun c => c != ':')).length == host.data.reverse.length
  then ""
  else if (host.data.reverse.takeWhile (fun c => c != ':')).all Char.isDigit
  then ⟨(host.data.reverse.takeWhile (fun c => c != ':')).reverse⟩
  else ""

/-- Flat rendering of a URL for the `"failed to scrape %s"` error message
(`URL.String()`; percent-escaping omitted — no property inspects this
string's internal syntax). -/
def urlString (u : URL) : String :=
  u.scheme ++ "://" ++ u.host ++ "/" ++ u.path ++
    (u.query.foldl (fun acc p => acc ++ "&" ++ p.1 ++ "=" ++ p.2) "")

/-- Which `http.Client` value performs a network operation. -/
inductive ClientId where
  /-- The single client built in `main` over the dial/TLS/idle-timeout
  transport and passed into `loop`/`doPoll`/`doScrape`/`doPush`. -/
  | configured
  /-- The `&http.Client\x7b\x7d` literal constructed inside
  `scrapeFederatedPrometheusEndpoint`. -/
  | fresh
deriving DecidableEq, Repr

instance {ε α : Type} [DecidableEq ε] [DecidableEq α] : DecidableEq (Except ε α) := fun x y =>
  match x, y with
  | .error a, .error b =>
    if h : a = b then isTrue (by rw [h]) else isFalse (by simp [h])
  | .error _, .ok _ => isFalse (by simp)
  | .ok _, .error _ => isFalse (by simp)
  | .ok a, .ok b =>
    if h : a = b then isTrue (by rw [h]) else isFalse (by simp [h])

/-- Agent configuration, as read from the flags in `main`.  `tokenRead`
models the outcome of `ioutil.ReadFile(*tokenPath)`.  `proxyBase` is the
parsed, trailing-slash-normalized `--proxy-url` (its successful parse is a
precondition of any decoded job: `doPoll` parses the same string first). -/
structure Config where
  tokenPath : String
  tokenRead : Except String String
  allowPort : String
  useLocalhost : Bool
  matchStrings : List String
  proxyBase : URL
deriving DecidableEq, Repr

/-- A decoded Job: the `*http.Request` produced by `http.ReadRequest` on a
poll response body.  `timeoutHeader` carries the scrape-timeout header in
already-lexed form (see `GetHeaderTimeout`); `ctxDeadline` is the request
context's deadline (`none` right after decoding: `ReadRequest` yields a
background context). -/
structure Request where
  id : String
  timeoutHeader : Option (Option Int)
  url : URL
  authHeader : Option String
  ctxDeadline : Option Int
deriving DecidableEq, Repr

/-- A scrape outcome / synthesized response (`*http.Response`): the fields
the relay protocol observes. -/
structure Response where
  statusCode : Nat
  body : String
deriving DecidableEq, Repr

/-- Modelled from the spec: `util.GetHeaderTimeout` lives in package
`util` of this repository, which is not under `src/`.  The spec requires a
timeout header on every Job: "missing or malformed timeout header is a hard
error (no default silently assumed)".  The header is modelled already
lexed: `none` = header absent, `some none` = present but unparsable,
`some (some t)` = parses to a timeout of `t` nanoseconds. -/
def GetHeaderTimeout : Option (Option Int) → Except String Int
  | none => .error "no timeout header"
  | some none => .error "unparsable timeout header"
  | some (some t) => .ok t

/-- One outbound scrape request: target URL and the client that issues it. -/
structure ScrapeCall where
  url : URL
  client : ClientId
deriving DecidableEq, Repr

/-- One `doPush` invocation: the headers it sets on the serialized response
(`id`, `X-Prometheus-Scrape-Timeout`), the serialized response's status and
body, the POST target, the push request's context deadline, and the client
that performs the POST. -/
structure PushCall where
  idHeader : String
  timeoutSecondsHeader : ℚ
  statusCode : Nat
  body : String
  url : URL
  deadline : Option Int
  client : ClientId
deriving DecidableEq, Repr

/-- The observable effect of running `doScrape` on one Job. `resolved` is
the job request's state at the moment the scrape is dispatched (`none` when
a failure path aborts before dispatch). -/
structure Trace where
  scrapes : List ScrapeCall
  pushes : List PushCall
  resolved : Option Request
deriving DecidableEq, Repr

/-- `base.ResolveReference("push")` for a base whose path ends in `"/"`
(`main` normalizes the proxy URL to a single trailing slash). -/
def pushURL (base : URL) : URL :=
  { base with path := base.path ++ "push", query := [] }

/-- `fmt.Sprintf("%f", float64(time.Until(deadline))/1e9)`: seconds
remaining until the context deadline, as an exact rational (the `%f` float
is modelled exactly; Go's zero time — a context with no deadline — is
instant `0`). -/
def pushTimeoutSeconds (d : Option Int) (pushNow : Int) : ℚ :=
  ((d.getD 0 - pushNow : Int) : ℚ) / 1000000000

/-- `Coordinator.doPush`: link the response to the originating request by
copying its `id` header, set the remaining-deadline header from the
originating request's context deadline, and POST the serialized response to
the relay's `push` endpoint under that same context. -/
def doPush (cfg : Config) (resp : Response) (orig : Request) (pushNow : Int) : PushCall :=
  { idHeader := orig.id
    timeoutSecondsHeader := pushTimeoutSeconds orig.ctxDeadline pushNow
    statusCode := resp.statusCode
    body := resp.body
    url := pushURL cfg.proxyBase
    deadline := orig.ctxDeadline
    client := .configured }

/-- `Coordinator.handleErr`: synthesize a 500 response whose body is the
error text and push it for the originating request. -/
def handleErr (cfg : Config) (orig : Request) (pushNow : Int) (errText : String) : PushCall :=
  doPush cfg { statusCode := 500, body := errText } orig pushNow

/-- The `_scheme=https` rewrite (`doScrape` lines 181–186): if the first
`_scheme` query value is `"https"`, set the scheme to `https` and delete
the `_scheme` parameter; otherwise leave the URL untouched. -/
def schemeRewrite (u : URL) : URL :=
  if getParam u.query "_scheme" = some "https" then
    { u with scheme := "https", query := delParam u.query "_scheme" }
  else u

/-- `createURL`: build an http URL from host, path and parameters. -/
def createURL (host path : String) (params : List (String × String)) : URL :=
  { scheme := "http", host := host, path := path, query := params }

/-- The hard-coded federate target host. -/
def federateHost : String := "prometheus-server.prometheus.svc.cluster.local"

/-- The URL built by `scrapeFederatedPrometheusEndpoint`: the hard-coded
federate endpoint with one `match[]` parameter per configured `--match`. -/
def federateURL (ms : List String) : URL :=
  createURL federateHost "federate" (ms.map (fun s => ("match[]", s)))

/-- `scrapeFederatedPrometheusEndpoint`: ignores the job URL entirely and
issues a GET for the hard-coded federate URL through a freshly constructed
`http.Client`. -/
def scrapeFederatedPrometheusEndpoint (cfg : Config) : ScrapeCall :=
  { url := federateURL cfg.matchStrings, client := .fresh }

/-- Tail of `doScrape` after the header/token/port checks: dispatch the
hard-coded federate scrape; on transport error push a synthesized 500 whose
body wraps the error with `"failed to scrape <job URL>"`, on success push
the real response. -/
def afterChecksScrape (cfg : Config) (pushNow : Int) (req : Request)
    (net : Except String Response) : Trace :=
  let call := scrapeFederatedPrometheusEndpoint cfg
  match net with
  | .error e =>
    { scrapes := [call]
      pushes := [handleErr cfg req pushNow ("failed to scrape " ++ urlString req.url ++ ": " ++ e)]
      resolved := some req }
  | .ok resp =>
    { scrapes := [call]
      pushes := [doPush cfg resp req pushNow]
      resolved := some req }

/-- `doScrape` lines 204–213 plus the scrape dispatch: if the job URL has
an explicit port (`port := request.URL.Port()`), enforce the allow-list
and (when `--use-localhost`) rewrite the host to `127.0.0.1:port`; a job
without an explicit port skips both. -/
def portStepAndScrape (cfg : Config) (pushNow : Int) (req : Request)
    (net : Except String Response) : Trace :=
  if 0 < (urlPort req.url.host).length then
    if cfg.allowPort ≠ "*" ∧ cfg.allowPort ≠ urlPort req.url.host then
      { scrapes := []
        pushes := [handleErr cfg req pushNow
          ("client does not have permissions to scrape port " ++ urlPort req.url.host)]
        resolved := none }
    else if cfg.useLocalhost then
      afterChecksScrape cfg pushNow
        { req with url := { req.url with host := "127.0.0.1:" ++ urlPort req.url.host } } net
    else afterChecksScrape cfg pushNow req net
  else afterChecksScrape cfg pushNow req net

/-- The request state after the deadline installation
(`context.WithTimeout`) and the `_scheme` rewrite. -/
def afterSchemeStep (now t : Int) (req : Request) : Request :=
  { req with ctxDeadline := some (now + t), url := schemeRewrite req.url }

/-- The request state after the bearer-token step: `Authorization` header
set and the scheme forced to `https`. -/
def afterTokenStep (now t : Int) (req : Request) (tok : String) : Request :=
  { afterSchemeStep now t req with
    authHeader := some ("Bearer " ++ tok)
    url := { (afterSchemeStep now t req).url with scheme := "https" } }

/-- `Coordinator.doScrape`: derive the deadline from the timeout header
(hard error if absent/unparsable), apply the `_scheme` rewrite, the
bearer-token step, the port allow-list and loopback rewrite, then scrape
and push.  `now` is the instant `context.WithTimeout` runs, `pushNow` the
instant `doPush` computes the remaining deadline. -/
def doScrape (cfg : Config) (now pushNow : Int) (req : Request)
    (net : Except String Response) : Trace :=
  match GetHeaderTimeout req.timeoutHeader with
  | .error e =>
    { scrapes := [], pushes := [handleErr cfg req pushNow e], resolved := none }
  | .ok t =>
    if cfg.tokenPath ≠ "" then
      match cfg.tokenRead with
      | .error _ =>
        { scrapes := []
          pushes := [handleErr cfg (afterSchemeStep now t req) pushNow
            "cannot read token from token-path"]
          resolved := none }
      | .ok tok => portStepAndScrape cfg pushNow (afterTokenStep now t req tok) net
    else portStepAndScrape cfg pushNow (afterSchemeStep now t req) net

/-- `Coordinator.doPoll`: POST the agent identity to the relay's `poll`
endpoint through the configured client; on a successfully decoded job,
spawn exactly one `doScrape` for it.  The first component records the
client performing the poll leg; the second is the spawned job's trace. -/
def doPoll (cfg : Config) (now pushNow : Int) (pollNet : Except String Request)
    (net : Except String Response) : ClientId × Option Trace :=
  (ClientId.configured,
    match pollNet with
    | .error _ => none
    | .ok req => some (doScrape cfg now pushNow req net))

/-!
## Backoff policy

Embedding of the parts of `github.com/cenkalti/backoff/v4` the client uses
(`ExponentialBackOff.NextBackOff` and its helpers), with durations and the
float arithmetic modelled over `ℚ` (1.5 and the nanosecond counts involved
are exact in `float64`; the final truncation of `time.Duration(...)` to
whole nanoseconds is omitted — every property below is an inequality with
slack far above one nanosecond).
-/

/-- The mutable state and parameters of `backoff.ExponentialBackOff`. -/
structure ExponentialBackOff where
  currentInterval : ℚ
  initialInterval : ℚ
  randomizationFactor : ℚ
  multiplier : ℚ
  maxInterval : ℚ
  maxElapsedTime : ℚ
deriving DecidableEq, Repr

/-- `getRandomValueFromInterval`: a value in
`[currentInterval·(1−rf), currentInterval·(1+rf) + 1]` chosen by the random
draw `rand ∈ [0,1)`; exactly `currentInterval` when `rf = 0`. -/
def getRandomValueFromInterval (rf rand cur : ℚ) : ℚ :=
  if rf = 0 then cur
  else
    let delta := rf * cur
    let minInterval := cur - delta
    let maxInterval := cur + delta
    minInterval + rand * (maxInterval - minInterval + 1)

/-- `incrementCurrentInterval`: multiply the underlying interval by the
multiplier, capping it at `maxInterval`. -/
def incrementCurrentInterval (b : ExponentialBackOff) : ExponentialBackOff :=
  if b.maxInterval / b.multiplier ≤ b.currentInterval then
    { b with currentInterval := b.maxInterval }
  else
    { b with currentInterval := b.currentInterval * b.multiplier }

/-- `ExponentialBackOff.NextBackOff`: draw the randomized wait from the
current underlying interval, advance the underlying interval, and return
`Stop` (`none`) only when a nonzero `MaxElapsedTime` is exceeded. `rand` is
the `rand.Float64()` draw, `elapsed` the `GetElapsedTime()` value. -/
def nextBackOff (b : ExponentialBackOff) (rand elapsed : ℚ) :
    Option ℚ × ExponentialBackOff :=
  let next := getRandomValueFromInterval b.randomizationFactor rand b.currentInterval
  let b' := incrementCurrentInterval b
  if b.maxElapsedTime ≠ 0 ∧ b.maxElapsedTime < elapsed + next then (none, b')
  else (some next, b')

/-- `newBackOffFromFlags`: the backoff object the client builds — the
configured initial and maximum waits, the fixed multiplier 1.5,
`MaxElapsedTime = 0` (never give up), and the library-default randomization
factor 0.5 (not overridden).  `currentInterval` starts at the initial wait,
as set by the `Reset()` that `backoff.RetryNotify` performs on entry. -/
def newBackOffFromFlags (initialWait maxWait : ℚ) : ExponentialBackOff :=
  { currentInterval := initialWait
    initialInterval := initialWait
    randomizationFactor := 1/2
    multiplier := 3/2
    maxInterval := maxWait
    maxElapsedTime := 0 }

/-- The waits produced by consecutive failed polls: feed one random draw
per failure, threading the state and accumulating (a lower bound of) the
elapsed time; stops at `Stop`. -/
def backoffRun (b : ExponentialBackOff) (elapsed : ℚ) : List ℚ → List ℚ
  | [] => []
  | r :: rs =>
    match nextBackOff b r elapsed with
    | (none, _) => []
    | (some v, b') => v :: backoffRun b' (elapsed + v) rs

/-- Invariant tying a backoff state to the client's flag configuration
`(i, m)`: the parameter fields are those of `newBackOffFromFlags i m` and
the underlying interval stays within `(0, m]`. -/
def backoffInv (i m : ℚ) (b : ExponentialBackOff) : Prop :=
  0 < b.currentInterval ∧ b.currentInterval ≤ m ∧
  b.initialInterval = i ∧ b.randomizationFactor = 1/2 ∧
  b.multiplier = 3/2 ∧ b.maxInterval = m ∧ b.maxElapsedTime = 0

/-!
## Structural lemmas about the executor trace
-/

theorem doPush_congr (cfg : Config) (r : Response) (pushNow : Int) (a b : Request)
    (hid : a.id = b.id) (hd : a.ctxDeadline = b.ctxDeadline) :
    doPush cfg r a pushNow = doPush cfg r b pushNow := by
  simp [doPush, hid, hd]

theorem afterChecks_pushes (cfg : Config) (pushNow : Int) (req : Request)
    (net : Except String Response) :
    ∃ resp : Response,
      (afterChecksScrape cfg pushNow req net).pushes = [doPush cfg resp req pushNow] := by
  cases net with
  | error e => exact ⟨_, rfl⟩
  | ok resp => exact ⟨resp, rfl⟩

theorem portStep_pushes (cfg : Config) (pushNow : Int) (req : Request)
    (net : Except String Response) :
    ∃ resp : Response,
      (portStepAndScrape cfg pushNow req net).pushes = [doPush cfg resp req pushNow] := by
  unfold portStepAndScrape
  split
  · split
    · exact ⟨{ statusCode := 500, body := "client does not have permissions to scrape port " ++ urlPort req.url.host }, rfl⟩
    · split
      · obtain ⟨resp, h⟩ := afterChecks_pushes cfg pushNow
          { req with url := { req.url with host := "127.0.0.1:" ++ urlPort req.url.host } } net
        exact ⟨resp, by rw [h]; exact congrArg (fun p => [p]) (doPush_congr _ _ _ _ _ rfl rfl)⟩
      · exact afterChecks_pushes cfg pushNow req net
  · exact afterChecks_pushes cfg pushNow req net

/-- Unfolding `doScrape` on a failing timeout header. -/
theorem doScrape_eq_error (cfg : Config) (now pushNow : Int) (req : Request)
    (net : Except String Response) (e : String)
    (h : GetHeaderTimeout req.timeoutHeader = .error e) :
    doScrape cfg now pushNow req net =
      { scrapes := [], pushes := [handleErr cfg req pushNow e], resolved := none } := by
  unfold doScrape; rw [h]

/-- Unfolding `doScrape` on a parsed timeout header. -/
theorem doScrape_eq_ok (cfg : Config) (now pushNow : Int) (req : Request)
    (net : Except String Response) (t : Int)
    (h : GetHeaderTimeout req.timeoutHeader = .ok t) :
    doScrape cfg now pushNow req net =
      (if cfg.tokenPath ≠ "" then
        match cfg.tokenRead with
        | .error _ =>
          { scrapes := []
            pushes := [handleErr cfg (afterSchemeStep now t req) pushNow
              "cannot read token from token-path"]
            resolved := none }
        | .ok tok => portStepAndScrape cfg pushNow (afterTokenStep now t req tok) net
      else portStepAndScrape cfg pushNow (afterSchemeStep now t req) net) := by
  unfold doScrape; rw [h]

/-- Every run of `doScrape` performs exactly one `doPush`, for the original
request with the derived deadline installed when the timeout header parsed,
and under the request's original (deadline-free) context otherwise. -/
theorem doScrape_pushes (cfg : Config) (now pushNow : Int) (req : Request)
    (net : Except String Response) :
    ∃ (resp : Response) (d : Option Int),
      (doScrape cfg now pushNow req net).pushes =
        [doPush cfg resp { req with ctxDeadline := d } pushNow] ∧
      (∀ t, GetHeaderTimeout req.timeoutHeader = .ok t → d = some (now + t)) ∧
      (∀ e, GetHeaderTimeout req.timeoutHeader = .error e → d = req.ctxDeadline) := by
  cases h : GetHeaderTimeout req.timeoutHeader with
  | error e =>
    refine ⟨{ statusCode := 500, body := e }, req.ctxDeadline, ?_, ?_, ?_⟩
    · rw [doScrape_eq_error cfg now pushNow req net e h]
      exact congrArg (fun p => [p]) (doPush_congr _ _ _ _ _ rfl rfl)
    · intro t ht; cases ht
    · intro e' _; rfl
  | ok t =>
    have key : ∀ req' : Request, req'.id = req.id → req'.ctxDeadline = some (now + t) →
        ∃ resp, (portStepAndScrape cfg pushNow req' net).pushes =
          [doPush cfg resp { req with ctxDeadline := some (now + t) } pushNow] := by
      intro req' hid hd
      obtain ⟨resp, hp⟩ := portStep_pushes cfg pushNow req' net
      exact ⟨resp, by rw [hp]; exact congrArg (fun p => [p]) (doPush_congr _ _ _ _ _ hid hd)⟩
    have main : ∃ resp, (doScrape cfg now pushNow req net).pushes =
        [doPush cfg resp { req with ctxDeadline := some (now + t) } pushNow] := by
      rw [doScrape_eq_ok cfg now pushNow req net t h]
      split
      · cases cfg.tokenRead with
        | error e =>
          exact ⟨{ statusCode := 500, body := "cannot read token from token-path" },
            congrArg (fun p => [p]) (doPush_congr _ _ _ _ _ rfl rfl)⟩
        | ok tok => exact key _ rfl rfl
      · exact key _ rfl rfl
    obtain ⟨resp, hp⟩ := main
    exact ⟨resp, some (now + t), hp, fun t' ht => by cases ht; rfl, fun e he => by cases he⟩

theorem schemeRewrite_host (u : URL) : (schemeRewrite u).host = u.host := by
  unfold schemeRewrite; split <;> rfl

theorem schemeRewrite_query_sub (u : URL) :
    (schemeRewrite u).query = delParam u.query "_scheme" ∨ (schemeRewrite u).query = u.query := by
  unfold schemeRewrite; split
  · exact Or.inl rfl
  · exact Or.inr rfl

theorem afterSchemeStep_host (now t : Int) (req : Request) :
    (afterSchemeStep now t req).url.host = req.url.host :=
  schemeRewrite_host req.url

theorem afterTokenStep_host (now t : Int) (req : Request) (tok : String) :
    (afterTokenStep now t req tok).url.host = req.url.host :=
  schemeRewrite_host req.url

theorem getParam_delParam (q : List (String × String)) (k : String) :
    getParam (delParam q k) k = none := by
  induction q with
  | nil => rfl
  | cons a q ih =>
    by_cases h : a.1 = k
    · simp only [delParam, List.filter_cons, h]
      simp only [delParam] at ih
      simpa using ih
    · simp only [delParam, getParam, List.filter_cons, List.find?_cons] at ih ⊢
      simp [h, ih]

theorem takeWhile_append_all {p : Char → Bool} (l₁ l₂ : List Char) (h : ∀ c ∈ l₁, p c = true) :
    (l₁ ++ l₂).takeWhile p = l₁ ++ l₂.takeWhile p := by
  induction l₁ with
  | nil => rfl
  | cons a l ih =>
    have ha : p a = true := h a (List.mem_cons_self a l)
    have hl : ∀ c ∈ l, p c = true := fun c hc => h c (List.mem_cons_of_mem a hc)
    simp [List.takeWhile_cons, ha, ih hl]

/-- Whatever `Port()` extracts is made of decimal digits. -/
theorem urlPort_digits (host : String) : (urlPort host).data.all Char.isDigit = true := by
  unfold urlPort
  split
  · rfl
  · split
    · rename_i hall
      simpa [List.all_reverse] using hall
    · rfl

theorem digit_ne_colon (c : Char) (h : c.isDigit = true) : (c != ':') = true := by
  by_cases hc : c = ':'
  · rw [hc] at h; exact absurd h (by decide)
  · simp [bne_iff_ne, hc]

/-- `Port()` of a loopback rewrite `127.0.0.1:p` recovers `p` whenever `p`
is a nonempty digit string (which every extracted port is). -/
theorem urlPort_loopback (p : String) (hd : p.data.all Char.isDigit = true) :
    urlPort ("127.0.0.1:" ++ p) = p := by
  have hall : ∀ c ∈ p.data.reverse, (c != ':') = true := by
    intro c hc
    rw [List.mem_reverse] at hc
    exact digit_ne_colon c (List.all_eq_true.mp hd c hc)
  have hdata : ("127.0.0.1:" ++ p).data.reverse = p.data.reverse ++ ':' :: "1.0.0.721".data := by
    show ("127.0.0.1:".data ++ p.data).reverse = _
    rw [List.reverse_append]
    exact congrArg (p.data.reverse ++ ·) (by decide)
  have ht : ("127.0.0.1:" ++ p).data.reverse.takeWhile (fun c => c != ':') = p.data.reverse := by
    rw [hdata, takeWhile_append_all _ _ hall]
    simp [List.takeWhile_cons]
  have hlen : (p.data.reverse.length == ("127.0.0.1:" ++ p).data.reverse.length) = false := by
    rw [hdata, List.length_append]
    simp
  unfold urlPort
  rw [ht, hlen]
  rw [if_neg Bool.false_ne_true]
  rw [if_pos (by rw [List.all_reverse]; exact hd)]
  rw [List.reverse_reverse]

theorem str_length_pos (s : String) (h : s ≠ "") : 0 < s.length := by
  cases s with
  | mk data =>
    cases data with
    | nil => exact absurd rfl h
    | cons c cs => exact Nat.succ_pos cs.length

/-- Shape of the post-checks tail: the federate scrape is dispatched, the
resolved request is recorded, and on a successful scrape the real response
is pushed for the resolved request. -/
theorem afterChecks_shape (cfg : Config) (pushNow : Int) (req : Request)
    (net : Except String Response) :
    (afterChecksScrape cfg pushNow req net).scrapes = [scrapeFederatedPrometheusEndpoint cfg] ∧
    (afterChecksScrape cfg pushNow req net).resolved = some req ∧
    ∀ resp : Response, net = .ok resp →
      (afterChecksScrape cfg pushNow req net).pushes = [doPush cfg resp req pushNow] := by
  cases net with
  | error e => exact ⟨rfl, rfl, fun resp h => by cases h⟩
  | ok resp => exact ⟨rfl, rfl, fun resp' h => by cases h; rfl⟩

/-- When the port allow-list does not deny the request, the port step
reduces to the post-checks tail run on the (possibly loopback-rewritten)
request. -/
theorem portStep_pass (cfg : Config) (pushNow : Int) (req : Request)
    (net : Except String Response)
    (h : ¬0 < (urlPort req.url.host).length ∨
      ¬(cfg.allowPort ≠ "*" ∧ cfg.allowPort ≠ urlPort req.url.host)) :
    ∃ req' : Request,
      portStepAndScrape cfg pushNow req net = afterChecksScrape cfg pushNow req' net ∧
      req'.id = req.id ∧ req'.ctxDeadline = req.ctxDeadline ∧
      req'.url.scheme = req.url.scheme ∧ req'.url.query = req.url.query ∧
      (req'.url.host = req.url.host ∨
        req'.url.host = "127.0.0.1:" ++ urlPort req.url.host) := by
  unfold portStepAndScrape
  by_cases h1 : 0 < (urlPort req.url.host).length
  · rw [if_pos h1]
    have h2 : ¬(cfg.allowPort ≠ "*" ∧ cfg.allowPort ≠ urlPort req.url.host) := by
      cases h with
      | inl hl => exact absurd h1 hl
      | inr hr => exact hr
    rw [if_neg h2]
    cases hl : cfg.useLocalhost with
    | true =>
      rw [if_pos rfl]
      exact ⟨{ req with url := { req.url with host := "127.0.0.1:" ++ urlPort req.url.host } },
        rfl, rfl, rfl, rfl, rfl, Or.inr rfl⟩
    | false =>
      rw [if_neg Bool.false_ne_true]
      exact ⟨req, rfl, rfl, rfl, rfl, rfl, Or.inl rfl⟩
  · rw [if_neg h1]
    exact ⟨req, rfl, rfl, rfl, rfl, rfl, Or.inl rfl⟩

/-- Any request recorded as resolved by the port step agrees with the
incoming request except possibly for a loopback host rewrite. -/
theorem portStep_resolved (cfg : Config) (pushNow : Int) (req : Request)
    (net : Except String Response) :
    ∀ r : Request, (portStepAndScrape cfg pushNow req net).resolved = some r →
      r.url.scheme = req.url.scheme ∧ r.url.query = req.url.query ∧
      r.id = req.id ∧ r.ctxDeadline = req.ctxDeadline ∧
      (r.url.host = req.url.host ∨ r.url.host = "127.0.0.1:" ++ urlPort req.url.host) := by
  intro r hr
  unfold portStepAndScrape at hr
  by_cases h1 : 0 < (urlPort req.url.host).length
  · rw [if_pos h1] at hr
    by_cases h2 : cfg.allowPort ≠ "*" ∧ cfg.allowPort ≠ urlPort req.url.host
    · rw [if_pos h2] at hr; cases hr
    · rw [if_neg h2] at hr
      cases hl : cfg.useLocalhost with
      | true =>
        rw [hl, if_pos rfl] at hr
        obtain ⟨-, hres, -⟩ := afterChecks_shape cfg pushNow
          { req with url := { req.url with host := "127.0.0.1:" ++ urlPort req.url.host } } net
        rw [hres] at hr
        cases hr
        exact ⟨rfl, rfl, rfl, rfl, Or.inr rfl⟩
      | false =>
        rw [hl, if_neg Bool.false_ne_true] at hr
        obtain ⟨-, hres, -⟩ := afterChecks_shape cfg pushNow req net
        rw [hres] at hr
        cases hr
        exact ⟨rfl, rfl, rfl, rfl, Or.inl rfl⟩
  · rw [if_neg h1] at hr
    obtain ⟨-, hres, -⟩ := afterChecks_shape cfg pushNow req net
    rw [hres] at hr
    cases hr
    exact ⟨rfl, rfl, rfl, rfl, Or.inl rfl⟩

theorem portStep_scrapes (cfg : Config) (pushNow : Int) (req : Request)
    (net : Except String Response) :
    (portStepAndScrape cfg pushNow req net).scrapes = [] ∨
    (portStepAndScrape cfg pushNow req net).scrapes =
      [scrapeFederatedPrometheusEndpoint cfg] := by
  unfold portStepAndScrape
  split
  · split
    · exact Or.inl rfl
    · split
      · exact Or.inr (afterChecks_shape cfg pushNow _ net).1
      · exact Or.inr (afterChecks_shape cfg pushNow req net).1
  · exact Or.inr (afterChecks_shape cfg pushNow req net).1

/-- A `doScrape` trace performs either no outbound scrape (a pre-dispatch
failure) or exactly the hard-coded federate scrape. -/
theorem doScrape_scrapes (cfg : Config) (now pushNow : Int) (req : Request)
    (net : Except String Response) :
    (doScrape cfg now pushNow req net).scrapes = [] ∨
    (doScrape cfg now pushNow req net).scrapes =
      [scrapeFederatedPrometheusEndpoint cfg] := by
  cases h : GetHeaderTimeout req.timeoutHeader with
  | error e => rw [doScrape_eq_error cfg now pushNow req net e h]; exact Or.inl rfl
  | ok t =>
    rw [doScrape_eq_ok cfg now pushNow req net t h]
    split
    · cases cfg.tokenRead with
      | error e => exact Or.inl rfl
      | ok tok => exact portStep_scrapes cfg pushNow _ net
    · exact portStep_scrapes cfg pushNow _ net

/-- When the token step passes — either no token path is configured, or
the token file reads successfully — `doScrape` on a Job with a parsed
timeout header reduces to the port step on a request that keeps the Job's
id, host and (post-`_scheme`-rewrite) query, and carries the derived
deadline; only the scheme may additionally have been forced to `https` by
the token step. -/
theorem doScrape_tokenPass (cfg : Config) (now pushNow t : Int) (req : Request)
    (net : Except String Response)
    (ht : GetHeaderTimeout req.timeoutHeader = .ok t)
    (htok : cfg.tokenPath = "" ∨ ∃ tok, cfg.tokenRead = .ok tok) :
    ∃ req' : Request,
      doScrape cfg now pushNow req net = portStepAndScrape cfg pushNow req' net ∧
      req'.id = req.id ∧ req'.ctxDeadline = some (now + t) ∧
      req'.url.host = req.url.host ∧
      req'.url.query = (schemeRewrite req.url).query ∧
      (req'.url.scheme = (schemeRewrite req.url).scheme ∨ req'.url.scheme = "https") := by
  rw [doScrape_eq_ok cfg now pushNow req net t ht]
  by_cases hP : cfg.tokenPath ≠ ""
  · rw [if_pos hP]
    have hread : ∃ tok, cfg.tokenRead = .ok tok := by
      cases htok with
      | inl h => exact absurd h hP
      | inr h => exact h
    obtain ⟨tok, htr⟩ := hread
    refine ⟨afterTokenStep now t req tok, ?_, rfl, rfl,
      afterTokenStep_host now t req tok, rfl, Or.inr rfl⟩
    rw [htr]
  · rw [if_neg hP]
    exact ⟨afterSchemeStep now t req, rfl, rfl, rfl, afterSchemeStep_host now t req,
      rfl, Or.inl rfl⟩

/-!
## Backoff lemmas
-/

theorem getRandomValueFromInterval_half (rand cur : ℚ) :
    getRandomValueFromInterval (1/2) rand cur = cur / 2 + rand * (cur + 1) := by
  unfold getRandomValueFromInterval
  rw [if_neg (by norm_num)]
  ring

/-- One `NextBackOff` step under the client's configuration: never `Stop`
(`MaxElapsedTime = 0`), the returned wait is the randomized draw around the
underlying interval, and the underlying interval grows by exactly ×1.5
below the cap and is pinned to the ceiling at and above it. -/
theorem backoffInv_set (i m x : ℚ) (b : ExponentialBackOff) (hinv : backoffInv i m b)
    (h0 : 0 < x) (h1 : x ≤ m) : backoffInv i m { b with currentInterval := x } := by
  obtain ⟨-, -, hinit, hrf, hmul, hmax, hmet⟩ := hinv
  exact ⟨h0, h1, hinit, hrf, hmul, hmax, hmet⟩

theorem nextBackOff_step (i m : ℚ) (b : ExponentialBackOff) (rand elapsed : ℚ)
    (hinv : backoffInv i m b) :
    (nextBackOff b rand elapsed).1 =
      some (b.currentInterval / 2 + rand * (b.currentInterval + 1)) ∧
    backoffInv i m (nextBackOff b rand elapsed).2 ∧
    b.currentInterval ≤ (nextBackOff b rand elapsed).2.currentInterval ∧
    (b.currentInterval < m * 2 / 3 →
      (nextBackOff b rand elapsed).2.currentInterval = b.currentInterval * (3 / 2)) ∧
    (m * 2 / 3 ≤ b.currentInterval →
      (nextBackOff b rand elapsed).2.currentInterval = m) := by
  obtain ⟨hpos, hle, hinit, hrf, hmul, hmax, hmet⟩ := hinv
  have hcond : ¬(b.maxElapsedTime ≠ 0 ∧ b.maxElapsedTime < elapsed +
      getRandomValueFromInterval b.randomizationFactor rand b.currentInterval) := by
    rw [hmet]; exact fun hc => hc.1 rfl
  have h1 : (nextBackOff b rand elapsed).1 =
      some (getRandomValueFromInterval b.randomizationFactor rand b.currentInterval) := by
    unfold nextBackOff
    rw [if_neg hcond]
  have h2 : (nextBackOff b rand elapsed).2 = incrementCurrentInterval b := by
    unfold nextBackOff
    rw [if_neg hcond]
  have hdiv : b.maxInterval / b.multiplier = m * 2 / 3 := by
    rw [hmax, hmul]; ring
  constructor
  · rw [h1, hrf, getRandomValueFromInterval_half]
  rw [h2]
  unfold incrementCurrentInterval
  rw [hdiv]
  by_cases hc : m * 2 / 3 ≤ b.currentInterval
  · rw [if_pos hc]
    have hx : ({ b with currentInterval := b.maxInterval } :
        ExponentialBackOff).currentInterval = m := hmax
    refine ⟨backoffInv_set i m b.maxInterval b ⟨hpos, hle, hinit, hrf, hmul, hmax, hmet⟩
      (by rw [hmax]; linarith) (le_of_eq hmax), ?_, ?_, ?_⟩
    · rw [hx]; exact hle
    · exact fun hlt => absurd hc (not_le.mpr hlt)
    · exact fun _ => hx
  · rw [if_neg hc]
    push_neg at hc
    have hx : ({ b with currentInterval := b.currentInterval * b.multiplier } :
        ExponentialBackOff).currentInterval = b.currentInterval * b.multiplier := rfl
    refine ⟨backoffInv_set i m (b.currentInterval * b.multiplier) b
      ⟨hpos, hle, hinit, hrf, hmul, hmax, hmet⟩
      (by rw [hmul]; nlinarith) (by rw [hmul]; linarith), ?_, ?_, ?_⟩
    · rw [hx, hmul]; linarith
    · intro hlt; rw [hx, hmul]
    · exact fun hge => absurd hge (not_le.mpr hc)

/-!
## Concrete fixtures used by witnesses and counterexamples
-/

/-- A sample configuration: no bearer token, allow-port `9100`, loopback
mode off, one `--match` value, proxy base `http://proxy.example:8080/`. -/
def cfg0 : Config :=
  { tokenPath := "", tokenRead := .ok "", allowPort := "9100", useLocalhost := false,
    matchStrings := ["up"],
    proxyBase := { scheme := "http", host := "proxy.example:8080", path := "/", query := [] } }

/-- The same configuration with loopback mode on (startup then requires the
single allowed port, which `cfg0` already has). -/
def cfgLocal : Config := { cfg0 with useLocalhost := true }

/-- A sample decoded Job: id 42, 1s timeout header, target
`host:9100/metrics`, fresh (deadline-free) context. -/
def req0 : Request :=
  { id := "42", timeoutHeader := some (some 1000000000),
    url := { scheme := "http", host := "host:9100", path := "/metrics", query := [] },
    authHeader := none, ctxDeadline := none }

/-- The same Job without an explicit target port. -/
def reqNoPort : Request :=
  { req0 with url := { req0.url with host := "myhost" } }

/-- The same Job targeting port 9200 (not the allowed 9100). -/
def req9200 : Request :=
  { req0 with url := { req0.url with host := "host:9200" } }

/-- The same Job carrying `_scheme=https` in its query string. -/
def reqScheme : Request :=
  { req0 with url := { req0.url with query := [("_scheme", "https"), ("x", "1")] } }

/-- A successful scrape answer. -/
def net0 : Except String Response := .ok { statusCode := 200, body := "metrics" }

/-- A token-configured variant of `cfg0`: a bearer-token path is set and
the token file reads successfully. -/
def cfgToken : Config :=
  { cfg0 with tokenPath := "/var/run/token", tokenRead := .ok "s3cr3t" }

/-!
## Claims
-/

/-- **C1** (counterexample).  The claim says the Executor scrapes the Job's
resolved target URL.  For a Job targeting `host:9100/metrics` that passes
every check under an allow-port-9100 configuration, the resolved target is
`http://host:9100/metrics`, yet the (single) outbound scrape does not go to
that URL — it goes to the hard-coded federate endpoint. -/
theorem C1_cex :
    (doScrape cfg0 0 0 req0 net0).resolved.map (fun r => r.url) =
      some { scheme := "http", host := "host:9100", path := "/metrics", query := [] } ∧
    (doScrape cfg0 0 0 req0 net0).scrapes.map ScrapeCall.url ≠
      [{ scheme := "http", host := "host:9100", path := "/metrics", query := [] }] := by
  decide

/-- **C1** (amended).  For every decoded Job that passes the
timeout-header, token, and port checks, the Executor performs exactly one
scrape — against the hard-coded federate endpoint
(`http://prometheus-server.prometheus.svc.cluster.local/federate` with the
configured `match[]` parameters), regardless of the Job's resolved target
URL — and on a successful scrape the pushed Result's status mirrors the
outcome of that federate scrape. -/
theorem C1_federate (cfg : Config) (now pushNow t : Int) (req : Request)
    (net : Except String Response)
    (ht : GetHeaderTimeout req.timeoutHeader = .ok t)
    (htok : cfg.tokenPath = "" ∨ ∃ tok, cfg.tokenRead = .ok tok)
    (hport : urlPort req.url.host = "" ∨ cfg.allowPort = "*" ∨
      cfg.allowPort = urlPort req.url.host) :
    (doScrape cfg now pushNow req net).scrapes =
      [{ url := federateURL cfg.matchStrings, client := ClientId.fresh }] ∧
    ∀ resp : Response, net = .ok resp →
      (doScrape cfg now pushNow req net).pushes.map PushCall.statusCode =
        [resp.statusCode] := by
  obtain ⟨req', heq, -, -, hhost, -, -⟩ :=
    doScrape_tokenPass cfg now pushNow t req net ht htok
  rw [heq]
  have hpass : ¬0 < (urlPort req'.url.host).length ∨
      ¬(cfg.allowPort ≠ "*" ∧ cfg.allowPort ≠ urlPort req'.url.host) := by
    rw [hhost]
    cases hport with
    | inl h => exact Or.inl (by rw [h]; decide)
    | inr h =>
      cases h with
      | inl h => exact Or.inr (fun hc => hc.1 h)
      | inr h => exact Or.inr (fun hc => hc.2 h)
  obtain ⟨req'', heq2, -, -, -, -, -⟩ := portStep_pass cfg pushNow req' net hpass
  rw [heq2]
  obtain ⟨hs, -, hp⟩ := afterChecks_shape cfg pushNow req'' net
  exact ⟨by rw [hs]; rfl, fun resp hresp => by rw [hp resp hresp]; rfl⟩

/-- Witness for `C1_federate` at a token-configured agent (`cfgToken`) /
`req0` / a 200 scrape answer. -/
theorem C1_federate_witness :
    (doScrape cfgToken 0 0 req0 net0).scrapes =
      [{ url := federateURL cfgToken.matchStrings, client := ClientId.fresh }] ∧
    (doScrape cfgToken 0 0 req0 net0).pushes.map PushCall.statusCode = [200] :=
  ⟨(C1_federate cfgToken 0 0 1000000000 req0 net0 rfl (Or.inr ⟨"s3cr3t", rfl⟩)
      (Or.inr (Or.inr (by decide)))).1,
   (C1_federate cfgToken 0 0 1000000000 req0 net0 rfl (Or.inr ⟨"s3cr3t", rfl⟩)
      (Or.inr (Or.inr (by decide)))).2
     { statusCode := 200, body := "metrics" } rfl⟩

/-- **C2**.  Every Job decoded from a poll response is handed to exactly
one `doScrape`, which performs exactly one push, and the `id` header on
that push equals the Job's `id` header — on every path, success or
failure. -/
theorem C2_one_push_same_id (cfg : Config) (now pushNow : Int) (req : Request)
    (net : Except String Response) :
    (doPoll cfg now pushNow (Except.ok req) net).2 =
      some (doScrape cfg now pushNow req net) ∧
    (doScrape cfg now pushNow req net).pushes.map PushCall.idHeader = [req.id] := by
  obtain ⟨resp, d, hp, -, -⟩ := doScrape_pushes cfg now pushNow req net
  exact ⟨rfl, by rw [hp]; rfl⟩

/-- **C3** (counterexample).  The claim says all network I/O flows through
the single configured client.  On a fully passing Job the scrape is issued
by the client freshly constructed inside
`scrapeFederatedPrometheusEndpoint`, not the configured one. -/
theorem C3_cex :
    (doScrape cfg0 0 0 req0 net0).scrapes.map ScrapeCall.client = [ClientId.fresh] ∧
    ClientId.fresh ≠ ClientId.configured := by
  decide

/-- **C3** (amended).  The poll and push legs go through the single
configured client, but every outbound scrape is issued by a freshly
constructed default HTTP client. -/
theorem C3_clients (cfg : Config) (now pushNow : Int) (req : Request)
    (pollNet : Except String Request) (net : Except String Response) :
    (doPoll cfg now pushNow pollNet net).1 = ClientId.configured ∧
    (doScrape cfg now pushNow req net).pushes.map PushCall.client = [ClientId.configured] ∧
    ((doScrape cfg now pushNow req net).scrapes.map ScrapeCall.client = [] ∨
      (doScrape cfg now pushNow req net).scrapes.map ScrapeCall.client = [ClientId.fresh]) := by
  obtain ⟨resp, d, hp, -, -⟩ := doScrape_pushes cfg now pushNow req net
  refine ⟨rfl, by rw [hp]; rfl, ?_⟩
  cases doScrape_scrapes cfg now pushNow req net with
  | inl h => exact Or.inl (by rw [h]; rfl)
  | inr h => exact Or.inr (by rw [h]; rfl)

/-- **C5**.  When the Job's timeout header is absent or unparsable, no
scrape is attempted and exactly one error Result is pushed: a synthesized
500 whose body is the error text, under the Job's original context. -/
theorem C5_bad_timeout (cfg : Config) (now pushNow : Int) (req : Request)
    (net : Except String Response) (e : String)
    (h : GetHeaderTimeout req.timeoutHeader = .error e) :
    (doScrape cfg now pushNow req net).scrapes = [] ∧
    (doScrape cfg now pushNow req net).pushes = [handleErr cfg req pushNow e] ∧
    (doScrape cfg now pushNow req net).pushes.map PushCall.statusCode = [500] ∧
    (doScrape cfg now pushNow req net).pushes.map PushCall.body = [e] := by
  rw [doScrape_eq_error cfg now pushNow req net e h]
  exact ⟨rfl, rfl, rfl, rfl⟩

/-- Witness for `C5_bad_timeout`: a Job with no timeout header. -/
theorem C5_bad_timeout_witness :
    GetHeaderTimeout (none : Option (Option Int)) = Except.error "no timeout header" ∧
    (doScrape cfg0 0 0 { req0 with timeoutHeader := none } net0).scrapes = [] ∧
    (doScrape cfg0 0 0 { req0 with timeoutHeader := none } net0).pushes.map
      PushCall.statusCode = [500] :=
  ⟨rfl, (C5_bad_timeout cfg0 0 0 { req0 with timeoutHeader := none } net0
      "no timeout header" rfl).1,
    (C5_bad_timeout cfg0 0 0 { req0 with timeoutHeader := none } net0
      "no timeout header" rfl).2.2.1⟩

/-- **C6**.  With a specific allowed port configured, a Job (passing the
earlier timeout and token steps) whose explicit target port differs is
never scraped: no outbound scrape call is made and the single pushed
Result is the 500 permission denial. -/
theorem C6_port_denied (cfg : Config) (now pushNow t : Int) (req : Request)
    (net : Except String Response)
    (ht : GetHeaderTimeout req.timeoutHeader = .ok t)
    (htok : cfg.tokenPath = "" ∨ ∃ tok, cfg.tokenRead = .ok tok)
    (hstar : cfg.allowPort ≠ "*")
    (hp : urlPort req.url.host ≠ "")
    (hne : cfg.allowPort ≠ urlPort req.url.host) :
    (doScrape cfg now pushNow req net).scrapes = [] ∧
    (doScrape cfg now pushNow req net).pushes =
      [handleErr cfg { req with ctxDeadline := some (now + t) } pushNow
        ("client does not have permissions to scrape port " ++ urlPort req.url.host)] ∧
    (doScrape cfg now pushNow req net).pushes.map PushCall.statusCode = [500] ∧
    (doScrape cfg now pushNow req net).pushes.map PushCall.idHeader = [req.id] := by
  obtain ⟨req', heq, hid, hd, hhost, -, -⟩ :=
    doScrape_tokenPass cfg now pushNow t req net ht htok
  rw [heq]
  unfold portStepAndScrape
  rw [hhost]
  rw [if_pos (str_length_pos _ hp), if_pos ⟨hstar, hne⟩]
  refine ⟨rfl, ?_, rfl, ?_⟩
  · exact congrArg (fun p => [p])
      (doPush_congr cfg _ pushNow req' { req with ctxDeadline := some (now + t) } hid hd)
  · exact congrArg (fun s => [s]) hid

/-- Witness for `C6_port_denied`: a token-configured agent with allow-port
9100 and a Job targeting 9200. -/
theorem C6_port_denied_witness :
    (doScrape cfgToken 0 0 req9200 net0).scrapes = [] ∧
    (doScrape cfgToken 0 0 req9200 net0).pushes.map PushCall.statusCode = [500] :=
  ⟨(C6_port_denied cfgToken 0 0 1000000000 req9200 net0 rfl (Or.inr ⟨"s3cr3t", rfl⟩)
      (by decide) (by decide) (by decide)).1,
   (C6_port_denied cfgToken 0 0 1000000000 req9200 net0 rfl (Or.inr ⟨"s3cr3t", rfl⟩)
      (by decide) (by decide) (by decide)).2.2.1⟩

/-- **C7** (counterexample).  The claim says loopback mode rewrites every
Job's host.  A Job whose target URL has no explicit port is not rewritten
— execution proceeds (the scrape is dispatched) with the original host
`myhost`, even though `--use-localhost` is set and the allow-port is
specific. -/
theorem C7_cex :
    (doScrape cfgLocal 0 0 reqNoPort net0).resolved.map (fun r => r.url.host) =
      some "myhost" ∧
    (doScrape cfgLocal 0 0 reqNoPort net0).scrapes ≠ [] ∧
    ("myhost" : String) ≠ "127.0.0.1" := by
  decide

/-- **C7** (amended).  In loopback mode, a Job with an explicit target port
that passes the allow-list has its host rewritten to `127.0.0.1` with the
port preserved exactly; Jobs without an explicit port keep their original
host (see the counterexample). -/
theorem C7_loopback (cfg : Config) (now pushNow t : Int) (req : Request)
    (net : Except String Response)
    (ht : GetHeaderTimeout req.timeoutHeader = .ok t)
    (htok : cfg.tokenPath = "" ∨ ∃ tok, cfg.tokenRead = .ok tok)
    (hul : cfg.useLocalhost = true)
    (hp : urlPort req.url.host ≠ "")
    (hallow : cfg.allowPort = "*" ∨ cfg.allowPort = urlPort req.url.host) :
    (doScrape cfg now pushNow req net).resolved.map (fun r => r.url.host) =
      some ("127.0.0.1:" ++ urlPort req.url.host) ∧
    (doScrape cfg now pushNow req net).resolved.map (fun r => urlPort r.url.host) =
      some (urlPort req.url.host) := by
  obtain ⟨req', heq, -, -, hhost, -, -⟩ :=
    doScrape_tokenPass cfg now pushNow t req net ht htok
  rw [heq]
  unfold portStepAndScrape
  rw [hhost]
  have hno : ¬(cfg.allowPort ≠ "*" ∧ cfg.allowPort ≠ urlPort req.url.host) := by
    cases hallow with
    | inl h => exact fun hc => hc.1 h
    | inr h => exact fun hc => hc.2 h
  rw [if_pos (str_length_pos _ hp), if_neg hno, if_pos hul]
  obtain ⟨-, hres, -⟩ := afterChecks_shape cfg pushNow _ net
  rw [hres]
  refine ⟨rfl, ?_⟩
  show some (urlPort ("127.0.0.1:" ++ urlPort req.url.host)) = some (urlPort req.url.host)
  rw [urlPort_loopback _ (urlPort_digits req.url.host)]

/-- Witness for `C7_loopback`: loopback mode, Job targeting `host:9100`. -/
theorem C7_loopback_witness :
    (doScrape cfgLocal 0 0 req0 net0).resolved.map (fun r => r.url.host) =
      some ("127.0.0.1:" ++ urlPort req0.url.host) ∧
    (doScrape cfgLocal 0 0 req0 net0).resolved.map (fun r => urlPort r.url.host) =
      some (urlPort req0.url.host) :=
  C7_loopback cfgLocal 0 0 1000000000 req0 net0 rfl (Or.inl rfl) rfl (by decide)
    (Or.inr (by decide))

/-- **C8**.  The `_scheme=https` query parameter upgrades the scheme to
`https` and is stripped; any other `_scheme` value leaves the URL
untouched; and on every Job carrying `_scheme=https` that reaches the
scrape dispatch, the dispatched request's URL has scheme `https` and no
`_scheme` parameter. -/
theorem C8_scheme (u : URL) (cfg : Config) (now pushNow : Int) (req : Request)
    (net : Except String Response) :
    (getParam u.query "_scheme" = some "https" →
      (schemeRewrite u).scheme = "https" ∧
      getParam (schemeRewrite u).query "_scheme" = none) ∧
    (getParam u.query "_scheme" ≠ some "https" → schemeRewrite u = u) ∧
    (getParam req.url.query "_scheme" = some "https" →
      ∀ r : Request, (doScrape cfg now pushNow req net).resolved = some r →
        r.url.scheme = "https" ∧ getParam r.url.query "_scheme" = none) := by
  refine ⟨?_, ?_, ?_⟩
  · intro h
    unfold schemeRewrite
    rw [if_pos h]
    exact ⟨rfl, getParam_delParam u.query "_scheme"⟩
  · intro h
    unfold schemeRewrite
    rw [if_neg h]
  · intro h r hr
    have hsch : (schemeRewrite req.url).scheme = "https" := by
      unfold schemeRewrite; rw [if_pos h]
    have hq : getParam (schemeRewrite req.url).query "_scheme" = none := by
      unfold schemeRewrite; rw [if_pos h]
      exact getParam_delParam req.url.query "_scheme"
    cases htO : GetHeaderTimeout req.timeoutHeader with
    | error e =>
      rw [doScrape_eq_error cfg now pushNow req net e htO] at hr
      exact Option.noConfusion hr
    | ok t =>
      rw [doScrape_eq_ok cfg now pushNow req net t htO] at hr
      by_cases htok : cfg.tokenPath ≠ ""
      · rw [if_pos htok] at hr
        cases htr : cfg.tokenRead with
        | error e =>
          rw [htr] at hr
          exact Option.noConfusion hr
        | ok tok =>
          rw [htr] at hr
          obtain ⟨hs, hqq, -, -, -⟩ :=
            portStep_resolved cfg pushNow (afterTokenStep now t req tok) net r hr
          exact ⟨by rw [hs]; rfl, by rw [hqq]; exact hq⟩
      · rw [if_neg htok] at hr
        obtain ⟨hs, hqq, -, -, -⟩ :=
          portStep_resolved cfg pushNow (afterSchemeStep now t req) net r hr
        exact ⟨by rw [hs]; exact hsch, by rw [hqq]; exact hq⟩

/-- Witness for `C8_scheme`: a Job URL carrying `_scheme=https`. -/
theorem C8_scheme_witness :
    (schemeRewrite reqScheme.url).scheme = "https" ∧
    getParam (schemeRewrite reqScheme.url).query "_scheme" = none ∧
    ((afterSchemeStep 0 1000000000 reqScheme).url.scheme = "https" ∧
      getParam (afterSchemeStep 0 1000000000 reqScheme).url.query "_scheme" = none) := by
  have h := C8_scheme reqScheme.url cfg0 0 0 reqScheme net0
  exact ⟨(h.1 (by decide)).1, (h.1 (by decide)).2,
    h.2.2 (by decide) (afterSchemeStep 0 1000000000 reqScheme) (by decide)⟩

/-- **C9**.  Every push for a Job with a parsed timeout header carries the
Job's `id`, a remaining-timeout header equal to the seconds (as an exact
float value) from push time to the derived deadline `now + t`, is POSTed to
the relay's `push` endpoint, and runs under that same deadline. -/
theorem C9_push_metadata (cfg : Config) (now pushNow t : Int) (req : Request)
    (net : Except String Response)
    (h : GetHeaderTimeout req.timeoutHeader = .ok t) :
    (doScrape cfg now pushNow req net).pushes.map PushCall.idHeader = [req.id] ∧
    (doScrape cfg now pushNow req net).pushes.map PushCall.timeoutSecondsHeader =
      [((now + t - pushNow : Int) : ℚ) / 1000000000] ∧
    (doScrape cfg now pushNow req net).pushes.map PushCall.deadline = [some (now + t)] ∧
    (doScrape cfg now pushNow req net).pushes.map PushCall.url = [pushURL cfg.proxyBase] := by
  obtain ⟨resp, d, hp, hok, -⟩ := doScrape_pushes cfg now pushNow req net
  have hd : d = some (now + t) := hok t h
  subst hd
  rw [hp]
  exact ⟨rfl, rfl, rfl, rfl⟩

/-- Witness for `C9_push_metadata` at `cfg0` / `req0`, pushing 7ns after a
deadline derived at instant 5. -/
theorem C9_push_metadata_witness :
    (doScrape cfg0 5 7 req0 net0).pushes.map PushCall.idHeader = [req0.id] ∧
    (doScrape cfg0 5 7 req0 net0).pushes.map PushCall.deadline =
      [some (5 + 1000000000)] :=
  ⟨(C9_push_metadata cfg0 5 7 1000000000 req0 net0 rfl).1,
   (C9_push_metadata cfg0 5 7 1000000000 req0 net0 rfl).2.2.1⟩

/-- **C10**.  A Job whose target URL has no explicit port skips both the
port allow-list check and the loopback rewrite: even with a specific
allow-port and loopback mode on, it is neither denied nor rewritten, and
the scrape is dispatched with the original host. -/
theorem C10_portless (cfg : Config) (now pushNow t : Int) (req : Request)
    (net : Except String Response)
    (ht : GetHeaderTimeout req.timeoutHeader = .ok t)
    (htok : cfg.tokenPath = "" ∨ ∃ tok, cfg.tokenRead = .ok tok)
    (hp : urlPort req.url.host = "")
    (_hstar : cfg.allowPort ≠ "*")
    (_hul : cfg.useLocalhost = true) :
    (doScrape cfg now pushNow req net).scrapes =
      [{ url := federateURL cfg.matchStrings, client := ClientId.fresh }] ∧
    (doScrape cfg now pushNow req net).resolved.map (fun r => r.url.host) =
      some req.url.host := by
  obtain ⟨req', heq, -, -, hhost, -, -⟩ :=
    doScrape_tokenPass cfg now pushNow t req net ht htok
  rw [heq]
  unfold portStepAndScrape
  rw [hhost, hp]
  rw [if_neg (by decide)]
  obtain ⟨hs, hres, -⟩ := afterChecks_shape cfg pushNow req' net
  exact ⟨by rw [hs]; rfl, by rw [hres]; exact congrArg some hhost⟩

/-- **C4** (counterexample).  The claim says successive poll-retry waits
are non-decreasing and never exceed the configured ceiling.  With
initial wait 1s, ceiling 5s and random draws 0.99, 0, 0, 0, 0.9 (the
library's default randomization factor 0.5 is in force), the five
consecutive waits are ≈1.49s, 0.75s, 1.125s, 1.6875s, ≈7.0s: the second is
smaller than the first, and the fifth exceeds the 5s ceiling. -/
theorem C4_cex :
    backoffRun (newBackOffFromFlags 1000000000 5000000000) 0 [99/100, 0, 0, 0, 9/10] =
      [149000000099/100, 750000000, 1125000000, 1687500000, 70000000009/10] ∧
    (750000000 : ℚ) < 149000000099/100 ∧
    (5000000000 : ℚ) < 70000000009/10 := by
  refine ⟨?_, by norm_num, by norm_num⟩
  norm_num [backoffRun, newBackOffFromFlags, nextBackOff, getRandomValueFromInterval,
    incrementCurrentInterval]

/-- **C4** (amended).  The *underlying* interval starts at the configured
initial wait, is multiplied by exactly 1.5 after each call while below the
ceiling, is pinned to the ceiling once it reaches it, and (given initial ≤
ceiling) never exceeds it and is non-decreasing; the wait actually
*returned* by each call is the randomized value
`cur/2 + rand·(cur + 1)` (randomization factor 0.5, `rand ∈ [0,1)`), which
lies in `[cur/2, 3·ceiling/2 + 1)` — so returned waits may decrease and may
exceed the ceiling by up to 50% (see the counterexample); and with
`MaxElapsedTime = 0` the policy never returns `Stop`, so the retry loop
never gives up. -/
theorem C4_backoff (i m : ℚ) (hi : 0 < i) (him : i ≤ m) :
    backoffInv i m (newBackOffFromFlags i m) ∧
    (newBackOffFromFlags i m).currentInterval = i ∧
    (newBackOffFromFlags i m).multiplier = 3 / 2 ∧
    (newBackOffFromFlags i m).maxElapsedTime = 0 ∧
    ∀ (b : ExponentialBackOff) (rand elapsed : ℚ), backoffInv i m b →
      0 ≤ rand → rand < 1 →
      (nextBackOff b rand elapsed).1 =
        some (b.currentInterval / 2 + rand * (b.currentInterval + 1)) ∧
      b.currentInterval / 2 ≤ b.currentInterval / 2 + rand * (b.currentInterval + 1) ∧
      b.currentInterval / 2 + rand * (b.currentInterval + 1) < 3 * m / 2 + 1 ∧
      backoffInv i m (nextBackOff b rand elapsed).2 ∧
      b.currentInterval ≤ (nextBackOff b rand elapsed).2.currentInterval ∧
      (nextBackOff b rand elapsed).2.currentInterval ≤ m ∧
      (b.currentInterval < m * 2 / 3 →
        (nextBackOff b rand elapsed).2.currentInterval = b.currentInterval * (3 / 2)) ∧
      (m * 2 / 3 ≤ b.currentInterval →
        (nextBackOff b rand elapsed).2.currentInterval = m) := by
  refine ⟨⟨hi, him, rfl, rfl, rfl, rfl, rfl⟩, rfl, rfl, rfl, ?_⟩
  intro b rand elapsed hinv h0 h1
  obtain ⟨hval, hinv2, hmono, hgrow, hcap⟩ := nextBackOff_step i m b rand elapsed hinv
  obtain ⟨hpos, hle, -, -, -, -, -⟩ := hinv
  refine ⟨hval, ?_, ?_, hinv2, hmono, hinv2.2.1, hgrow, hcap⟩
  · nlinarith [mul_nonneg h0 (by linarith : (0:ℚ) ≤ b.currentInterval + 1)]
  · nlinarith [mul_pos (by linarith : (0:ℚ) < 1 - rand)
      (by linarith : (0:ℚ) < b.currentInterval + 1)]

/-- Witness for `C4_backoff`: initial wait 1, ceiling 2, one step with a
zero random draw. -/
theorem C4_backoff_witness :
    (nextBackOff (newBackOffFromFlags 1 2) 0 0).1 =
      some ((newBackOffFromFlags 1 2).currentInterval / 2 +
        0 * ((newBackOffFromFlags 1 2).currentInterval + 1)) ∧
    (nextBackOff (newBackOffFromFlags 1 2) 0 0).2.currentInterval =
      (newBackOffFromFlags 1 2).currentInterval * (3 / 2) := by
  have h := C4_backoff 1 2 (by norm_num) (by norm_num)
  have h5 := h.2.2.2.2 (newBackOffFromFlags 1 2) 0 0 h.1 (by norm_num) (by norm_num)
  exact ⟨h5.1, h5.2.2.2.2.2.2.1 (by norm_num [newBackOffFromFlags])⟩

/-- Witness for `C10_portless`: loopback mode with allow-port 9100, Job
targeting `myhost` with no explicit port. -/
theorem C10_portless_witness :
    (doScrape cfgLocal 0 0 reqNoPort net0).scrapes =
      [{ url := federateURL cfgLocal.matchStrings, client := ClientId.fresh }] ∧
    (doScrape cfgLocal 0 0 reqNoPort net0).resolved.map (fun r => r.url.host) =
      some reqNoPort.url.host :=
  C10_portless cfgLocal 0 0 1000000000 reqNoPort net0 rfl (Or.inl rfl) (by decide)
    (by decide) rfl

end PushProx
